import Mathlib

set_option maxRecDepth 40000

/-!
Verification development for the swift-jobs backend.

The repository has two variants of the same Express server:
`src/swift-jobs-backend/server.js` (newer, with PDF extraction and match
persistence) and `src/unnamed/part_000` (older, text-only extraction, no
match persistence in the matches endpoint).  We shallowly embed the request
handlers as pure Lean functions.  External services are oracles passed as
function arguments:

* the completion API (`llm : Str → Str`, prompt to response text),
* JSON parsing of the extracted substring (`parse : Str → Option _`,
  where `none` models `JSON.parse` or subsequent numeric field access
  throwing),
* the file system (`readFile`, `pdfParse` as `Str → Option Str`,
  `none` models a thrown error),
* password hashing and comparison,
* database reads (handler inputs) and the clock (`now`).

Texts are modelled as `List Char`; match scores as rationals (the
JavaScript number rounding `toFixed` is modelled by `jsRound`, rounding
half away from zero).  Database writes are made explicit: each handler
returns, besides the HTTP response data, the resulting matches table
(a `List MatchRow`), with the hosted database client's upsert keyed on
the pair of seeker id and listing id modelled by `upsertAll`.
-/

/-- Texts (JavaScript strings) are lists of characters. -/
abbrev Str := List Char

/-- The left-brace character (code 123), written via `Char.ofNat`. -/
def lbrace : Char := Char.ofNat 123

/-- The right-brace character (code 125). -/
def rbrace : Char := Char.ofNat 125

/-- Split a list at the first occurrence of `c`:
`splitFirst l c = some (p, r)` iff `l = p ++ c :: r` with `c` not in `p`. -/
def splitFirst : List Char → Char → Option (List Char × List Char)
  | [], _ => none
  | a :: as, c =>
    if a = c then some ([], as)
    else (splitFirst as c).map (fun p => (a :: p.1, p.2))

/-- Split a list at the last occurrence of `c`, via `splitFirst` on the
reversed list: `splitLast l c = some (m, q)` iff `l = m ++ c :: q` with `c`
not in `q`. -/
def splitLast (l : List Char) (c : Char) : Option (List Char × List Char) :=
  match splitFirst l.reverse c with
  | none => none
  | some (rq, rm) => some (rm.reverse, rq.reverse)

theorem splitFirst_spec : ∀ (l : List Char) (c : Char) (p r : List Char),
    splitFirst l c = some (p, r) → l = p ++ c :: r ∧ c ∉ p := by
  intro l
  induction l with
  | nil => intro c p r h; simp [splitFirst] at h
  | cons a as ih =>
    intro c p r h
    by_cases hac : a = c
    · subst hac
      simp [splitFirst] at h
      obtain ⟨hp, hr⟩ := h
      subst hp; subst hr
      simp
    · rw [splitFirst, if_neg hac] at h
      cases hsf : splitFirst as c with
      | none => rw [hsf] at h; simp at h
      | some pr =>
        rw [hsf] at h
        simp at h
        obtain ⟨hp, hr⟩ := h
        obtain ⟨h1, h2⟩ := ih c pr.1 pr.2 hsf
        subst hr
        constructor
        · rw [← hp]; simp [h1]
        · rw [← hp]
          intro hmem
          rcases List.mem_cons.mp hmem with h' | h'
          · exact hac h'.symm
          · exact h2 h'

theorem splitLast_spec (l : List Char) (c : Char) (m q : List Char)
    (h : splitLast l c = some (m, q)) : l = m ++ c :: q ∧ c ∉ q := by
  unfold splitLast at h
  cases hsf : splitFirst l.reverse c with
  | none => rw [hsf] at h; simp at h
  | some pr =>
    rw [hsf] at h
    simp only [Option.some.injEq, Prod.mk.injEq] at h
    obtain ⟨hm, hq⟩ := h
    obtain ⟨h1, h2⟩ := splitFirst_spec l.reverse c pr.1 pr.2 hsf
    subst hm; subst hq
    constructor
    · have h3 : l.reverse.reverse = (pr.1 ++ c :: pr.2).reverse := by rw [h1]
      simpa using h3
    · simpa using h2

/-- Embeds the JavaScript regex match used in every handler: a left brace,
any run of characters, then a right brace, with the star greedy.  The
leftmost possible start is the first left brace of the text, and greediness
makes the match extend to the last right brace occurring after it; if no
such pair exists, `match` returns `null` (here `none`). -/
def jsRegexExtract (s : Str) : Option Str :=
  match splitFirst s lbrace with
  | none => none
  | some (_, rest) =>
    match splitLast rest rbrace with
    | none => none
    | some (mid, _) => some (lbrace :: mid ++ [rbrace])

/-- Modelled from the spec: the "first JSON-looking substring" reading of
the extraction, i.e. the earliest brace-delimited region of the text (from
the first left brace to the first right brace after it).  Used only to
compare the spec's description with the code's greedy regex. -/
def firstBraceRegion (s : Str) : Option Str :=
  match splitFirst s lbrace with
  | none => none
  | some (_, rest) =>
    match splitFirst rest rbrace with
    | none => none
    | some (mid, _) => some (lbrace :: mid ++ [rbrace])

/-- JavaScript number rounding shared by both variants, in scaled form:
`jsRound100 q` is the integer nearest `100 * q` (half away from zero, as
`toFixed` rounds).  In `server.js` scores pass through
`parseFloat(x.toFixed(2))`, so every stored score is an exact multiple of
one hundredth; we represent it by this integer count of hundredths.  In
`part_000` the score is `(x * 100).toFixed(0)`, the same integer.  Computed
with `Int.fdiv` on numerator and denominator so that the kernel can
evaluate it. -/
def jsRound100 (q : ℚ) : Int :=
  if 0 ≤ q.num then (200 * q.num + q.den).fdiv (2 * q.den)
  else - ((200 * (- q.num) + q.den).fdiv (2 * q.den))

/-- The JSON object expected from the scoring prompts, as far as the
handlers access it: three numeric fields and an explanation.  A parse
oracle returning `none` models `JSON.parse` throwing on the extracted
substring or the subsequent `.toFixed` field access throwing. -/
structure MatchData where
  match_score : ℚ
  technical_fit : ℚ
  behavioral_fit : ℚ
  explanation : Str
deriving DecidableEq

/-- The fixed object used when the regex finds no JSON in the response
(`match_score: 0.70`, explanation "Good general fit"). -/
def defaultMatchData : MatchData :=
  { match_score := mkRat 7 10
    technical_fit := mkRat 7 10
    behavioral_fit := mkRat 7 10
    explanation := ("Good general fit").toList }

/-- A job seeker row as read for the matching endpoints, textual fields
kept as the strings interpolated into prompts. -/
structure Seeker where
  id : Nat
  full_name : Str
  email : Str
  skills : Str
  experience_years : Str
  preferred_roles : Str
  behavioral_traits : Str
deriving DecidableEq

/-- A job listing row joined with its employer, as read for the matching
endpoints. -/
structure Job where
  id : Nat
  title : Str
  company_name : Str
  location : Str
  salary_range : Str
  required_skills : Str
  behavioral_traits : Str
  description : Str
deriving DecidableEq

/-- The per-job prompt of GET /api/matches/:seekerId in server.js (brace
characters of the sample JSON written as escapes). -/
def buildMatchPrompt (seeker : Seeker) (job : Job) : Str :=
  ("Score this job match (0-1.0):\n\nJob Seeker:\nSkills: ").toList ++
  seeker.skills ++ ("\nExperience: ").toList ++ seeker.experience_years ++
  (" years\nPreferred Roles: ").toList ++ seeker.preferred_roles ++
  ("\nBehavioral Traits: ").toList ++ seeker.behavioral_traits ++
  ("\n\nJob:\nTitle: ").toList ++ job.title ++
  ("\nRequired Skills: ").toList ++ job.required_skills ++
  ("\nBehavioral Requirements: ").toList ++ job.behavioral_traits ++
  ("\nDescription: ").toList ++ job.description ++
  ("\n\nProvide a JSON response:\n\x7b\n  \"match_score\": 0.85,\n  \"technical_fit\": 0.90,\n  \"behavioral_fit\": 0.80,\n  \"explanation\": \"Strong match because...\"\n\x7d").toList

/-- The per-job prompt of GET /api/matches/:seekerId in part_000 (no
behavioral lines, raw field interpolation). -/
def buildMatchPromptOld (seeker : Seeker) (job : Job) : Str :=
  ("Score this job match (0-1.0):\n\nJob Seeker:\nSkills: ").toList ++
  seeker.skills ++ ("\nExperience: ").toList ++ seeker.experience_years ++
  (" years\nPreferred Roles: ").toList ++ seeker.preferred_roles ++
  ("\n\nJob:\nTitle: ").toList ++ job.title ++
  ("\nRequired Skills: ").toList ++ job.required_skills ++
  ("\nDescription: ").toList ++ job.description ++
  ("\n\nProvide a JSON response:\n\x7b\n  \"match_score\": 0.85,\n  \"technical_fit\": 0.90,\n  \"behavioral_fit\": 0.80,\n  \"explanation\": \"Strong match because...\"\n\x7d").toList

/-- The per-seeker prompt of GET /api/candidates/:jobId in server.js. -/
def buildCandidatePrompt (job : Job) (seeker : Seeker) : Str :=
  ("Score this candidate match (0-1.0):\n\nJob Requirements:\nCompany: ").toList ++
  job.company_name ++ ("\nTitle: ").toList ++ job.title ++
  ("\nRequired Skills: ").toList ++ job.required_skills ++
  ("\nBehavioral Requirements: ").toList ++ job.behavioral_traits ++
  ("\nDescription: ").toList ++ job.description ++
  ("\n\nCandidate Profile:\nName: ").toList ++ seeker.full_name ++
  ("\nSkills: ").toList ++ seeker.skills ++
  ("\nExperience: ").toList ++ seeker.experience_years ++
  (" years\nPreferred Roles: ").toList ++ seeker.preferred_roles ++
  ("\nBehavioral Traits: ").toList ++ seeker.behavioral_traits ++
  ("\n\nProvide a JSON response:\n\x7b\n  \"match_score\": 0.85,\n  \"technical_fit\": 0.90,\n  \"behavioral_fit\": 0.80,\n  \"explanation\": \"Strong candidate because...\"\n\x7d").toList

/-- One entry of the matches fan-out (both variants produce the same
fields; scores are held in hundredths, see `jsRound100`). -/
structure MatchEntry where
  jobId : Nat
  jobTitle : Str
  company : Str
  location : Str
  salaryRange : Str
  matchScore : Int
  technicalFit : Int
  behavioralFit : Int
  explanation : Str
deriving DecidableEq

/-- The normal-return entry of the matches fan-out: scores rounded to
hundredths by `toFixed`, explanation taken from the parsed data. -/
def entryOfMatchData (job : Job) (md : MatchData) : MatchEntry :=
  { jobId := job.id
    jobTitle := job.title
    company := job.company_name
    location := job.location
    salaryRange := job.salary_range
    matchScore := jsRound100 md.match_score
    technicalFit := jsRound100 md.technical_fit
    behavioralFit := jsRound100 md.behavioral_fit
    explanation := md.explanation }

/-- The catch-branch entry of the matches fan-out (0.70 scores, fixed
explanation). -/
def matchCatchEntry (job : Job) : MatchEntry :=
  { jobId := job.id
    jobTitle := job.title
    company := job.company_name
    location := job.location
    salaryRange := job.salary_range
    matchScore := 70
    technicalFit := 70
    behavioralFit := 70
    explanation := ("Potential match based on profile").toList }

/-- Scoring of one job for a seeker in server.js: call the completion API,
regex-extract a JSON substring, parse it, fall back to the fixed defaults
when extraction finds nothing or parsing throws. -/
def scoreJob (llm : Str → Str) (parse : Str → Option MatchData)
    (seeker : Seeker) (job : Job) : MatchEntry :=
  match jsRegexExtract (llm (buildMatchPrompt seeker job)) with
  | none => entryOfMatchData job defaultMatchData
  | some sub =>
    match parse sub with
    | none => matchCatchEntry job
    | some md => entryOfMatchData job md

/-- Scoring of one job for a seeker in part_000: the same fallback logic,
only the prompt differs. -/
def scoreJobOld (llm : Str → Str) (parse : Str → Option MatchData)
    (seeker : Seeker) (job : Job) : MatchEntry :=
  match jsRegexExtract (llm (buildMatchPromptOld seeker job)) with
  | none => entryOfMatchData job defaultMatchData
  | some sub =>
    match parse sub with
    | none => matchCatchEntry job
    | some md => entryOfMatchData job md

/-- One entry of the candidates fan-out in server.js. -/
structure CandidateEntry where
  candidateId : Nat
  candidateName : Str
  candidateEmail : Str
  matchScore : Int
  technicalFit : Int
  behavioralFit : Int
  explanation : Str
deriving DecidableEq

/-- The normal-return entry of the candidates fan-out. -/
def candEntryOfMatchData (seeker : Seeker) (md : MatchData) : CandidateEntry :=
  { candidateId := seeker.id
    candidateName := seeker.full_name
    candidateEmail := seeker.email
    matchScore := jsRound100 md.match_score
    technicalFit := jsRound100 md.technical_fit
    behavioralFit := jsRound100 md.behavioral_fit
    explanation := md.explanation }

/-- The catch-branch entry of the candidates fan-out. -/
def candCatchEntry (seeker : Seeker) : CandidateEntry :=
  { candidateId := seeker.id
    candidateName := seeker.full_name
    candidateEmail := seeker.email
    matchScore := 70
    technicalFit := 70
    behavioralFit := 70
    explanation := ("Potential candidate based on requirements").toList }

/-- Scoring of one seeker against a job in GET /api/candidates/:jobId. -/
def scoreSeeker (llm : Str → Str) (parse : Str → Option MatchData)
    (job : Job) (seeker : Seeker) : CandidateEntry :=
  match jsRegexExtract (llm (buildCandidatePrompt job seeker)) with
  | none => candEntryOfMatchData seeker defaultMatchData
  | some sub =>
    match parse sub with
    | none => candCatchEntry seeker
    | some md => candEntryOfMatchData seeker md

/-- Descending order on match entries, as the comparator
b.matchScore - a.matchScore sorts (Array.prototype.sort is stable; Lean
insertion sort on this relation is the same stable descending sort). -/
def scoreDescM (a b : MatchEntry) : Prop := b.matchScore ≤ a.matchScore

instance : DecidableRel scoreDescM :=
  fun a b => inferInstanceAs (Decidable (b.matchScore ≤ a.matchScore))

instance : IsTotal MatchEntry scoreDescM := ⟨fun a b => le_total b.matchScore a.matchScore⟩

instance : IsTrans MatchEntry scoreDescM := ⟨fun _ _ _ h1 h2 => le_trans h2 h1⟩

/-- Descending order on candidate entries. -/
def scoreDescC (a b : CandidateEntry) : Prop := b.matchScore ≤ a.matchScore

instance : DecidableRel scoreDescC :=
  fun a b => inferInstanceAs (Decidable (b.matchScore ≤ a.matchScore))

instance : IsTotal CandidateEntry scoreDescC := ⟨fun a b => le_total b.matchScore a.matchScore⟩

instance : IsTrans CandidateEntry scoreDescC := ⟨fun _ _ _ h1 h2 => le_trans h2 h1⟩

/-- A match entry as the response shapes it: the three scores are turned
into percent strings by multiplying by 100 and rounding with zero digits;
since scores are exact hundredths, the rendered percent is exactly the
hundredths integer, which we keep in place of the string. -/
structure FormattedMatch where
  jobId : Nat
  jobTitle : Str
  company : Str
  location : Str
  salaryRange : Str
  matchScorePct : Int
  technicalFitPct : Int
  behavioralFitPct : Int
  explanation : Str
deriving DecidableEq

/-- The final map of the matches response in server.js. -/
def fmtMatch (m : MatchEntry) : FormattedMatch :=
  { jobId := m.jobId
    jobTitle := m.jobTitle
    company := m.company
    location := m.location
    salaryRange := m.salaryRange
    matchScorePct := m.matchScore
    technicalFitPct := m.technicalFit
    behavioralFitPct := m.behavioralFit
    explanation := m.explanation }

/-- A candidate entry as the response shapes it. -/
structure FormattedCandidate where
  candidateId : Nat
  candidateName : Str
  candidateEmail : Str
  matchScorePct : Int
  technicalFitPct : Int
  behavioralFitPct : Int
  explanation : Str
deriving DecidableEq

/-- The final map of the candidates response in server.js. -/
def fmtCandidate (c : CandidateEntry) : FormattedCandidate :=
  { candidateId := c.candidateId
    candidateName := c.candidateName
    candidateEmail := c.candidateEmail
    matchScorePct := c.matchScore
    technicalFitPct := c.technicalFit
    behavioralFitPct := c.behavioralFit
    explanation := c.explanation }

/-- A row of the matches table exactly as the handlers build it for the
upsert: pair of ids, the three scores, a status and the match date.  (No
explanation field is inserted.) -/
structure MatchRow where
  job_seeker_id : Nat
  job_listing_id : Nat
  match_score : Int
  technical_fit : Int
  behavioral_fit : Int
  status : Str
  match_date : Str
deriving DecidableEq

/-- The conflict key of the upsert: onConflict job_seeker_id,job_listing_id. -/
def rowKey (r : MatchRow) : Nat × Nat := (r.job_seeker_id, r.job_listing_id)

/-- The row built from a match entry in GET /api/matches/:seekerId. -/
def rowOfMatch (seekerId : Nat) (now : Str) (m : MatchEntry) : MatchRow :=
  { job_seeker_id := seekerId
    job_listing_id := m.jobId
    match_score := m.matchScore
    technical_fit := m.technicalFit
    behavioral_fit := m.behavioralFit
    status := ("pending").toList
    match_date := now }

/-- The row built from a candidate entry in GET /api/candidates/:jobId. -/
def rowOfCandidate (jobId : Nat) (now : Str) (c : CandidateEntry) : MatchRow :=
  { job_seeker_id := c.candidateId
    job_listing_id := jobId
    match_score := c.matchScore
    technical_fit := c.technicalFit
    behavioral_fit := c.behavioralFit
    status := ("pending").toList
    match_date := now }

/-- One upsert with on-conflict update (ignoreDuplicates false): if a row
with the same key exists it is updated in place, otherwise the row is
appended.  Models the hosted database client's upsert keyed on the
(job_seeker_id, job_listing_id) unique constraint. -/
def upsertRow (table : List MatchRow) (r : MatchRow) : List MatchRow :=
  if table.any (fun x => rowKey x = rowKey r) then
    table.map (fun x => if rowKey x = rowKey r then r else x)
  else table ++ [r]

/-- Batch upsert of the rows, in order. -/
def upsertAll (table : List MatchRow) (rows : List MatchRow) : List MatchRow :=
  rows.foldl upsertRow table

/-- Outcome of a successful run of GET /api/matches/:seekerId in server.js:
HTTP status, the response matches, and the resulting matches table. -/
structure MatchesOutcome where
  status : Nat
  matchList : List FormattedMatch
  table : List MatchRow
deriving DecidableEq

/-- GET /api/matches/:seekerId in server.js (success path): score every
active job, filter at the 0.75 threshold, upsert the kept matches (the
handler ignores an upsert error, `upsertOk = false`, and still responds),
sort descending and format.  Database reads are the `seeker`, `jobs` and
`table` inputs. -/
def matchesHandler (llm : Str → Str) (parse : Str → Option MatchData)
    (now : Str) (upsertOk : Bool) (seekerId : Nat) (seeker : Seeker)
    (jobs : List Job) (table : List MatchRow) : MatchesOutcome :=
  let results := jobs.map (scoreJob llm parse seeker)
  let good := results.filter (fun m => 75 ≤ m.matchScore)
  let rows := good.map (rowOfMatch seekerId now)
  let table2 :=
    if 0 < rows.length then (if upsertOk then upsertAll table rows else table)
    else table
  { status := 200
    matchList := (List.insertionSort scoreDescM good).map fmtMatch
    table := table2 }

/-- Outcome of a successful run of GET /api/matches/:seekerId in part_000:
the response only carries the matches; the handler performs no writes, so
the table is returned unchanged. -/
structure MatchesOutcomeOld where
  matchList : List MatchEntry
  table : List MatchRow
deriving DecidableEq

/-- GET /api/matches/:seekerId in part_000 (success path): score every
active job, filter at 75 percent, sort descending, respond; no
persistence. -/
def matchesHandlerOld (llm : Str → Str) (parse : Str → Option MatchData)
    (seeker : Seeker) (jobs : List Job) (table : List MatchRow) :
    MatchesOutcomeOld :=
  let results := jobs.map (scoreJobOld llm parse seeker)
  { matchList := List.insertionSort scoreDescM
      (results.filter (fun m => 75 ≤ m.matchScore))
    table := table }

/-- Outcome of a successful run of GET /api/candidates/:jobId in
server.js. -/
structure CandidatesOutcome where
  status : Nat
  candidates : List FormattedCandidate
  table : List MatchRow
deriving DecidableEq

/-- GET /api/candidates/:jobId in server.js (success path): score every
seeker, upsert all results (even low scores), sort descending and
format. -/
def candidatesHandler (llm : Str → Str) (parse : Str → Option MatchData)
    (now : Str) (upsertOk : Bool) (jobId : Nat) (job : Job)
    (seekers : List Seeker) (table : List MatchRow) : CandidatesOutcome :=
  let results := seekers.map (scoreSeeker llm parse job)
  let rows := results.map (rowOfCandidate jobId now)
  let table2 :=
    if 0 < rows.length then (if upsertOk then upsertAll table rows else table)
    else table
  { status := 200
    candidates := (List.insertionSort scoreDescC results).map fmtCandidate
    table := table2 }

/-- One task completion in the Promise.all model: task `i` finishes and
writes its value into slot `i`.  Task values depend only on their own
index (each closure reads only its seeker/job and the fixed oracles). -/
def setSlot (tasks : List α) (slots : List (Option α)) (i : Nat) : List (Option α) :=
  slots.set i tasks[i]?

/-- Running the fan-out under a completion schedule: `order` lists the
indices in the order the network calls happen to finish (unordered,
possibly with repetitions); every completed task fills its own slot. -/
def runSchedule (tasks : List α) (order : List Nat) : List (Option α) :=
  order.foldl (setSlot tasks) (List.replicate tasks.length none)

/-- The value Promise.all resolves with once the scheduled completions are
in: the filled slots in index order. -/
def awaitAll (tasks : List α) (order : List Nat) : List α :=
  (runSchedule tasks order).reduceOption

/-- The parallel map pattern `Promise.all(xs.map(async x => f x))` under a
completion schedule. -/
def parallelMap (f : β → α) (l : List β) (order : List Nat) : List α :=
  awaitAll (l.map f) order

/-- The basename of a path: everything after the last separator.  Models
the Node path helper as used here. -/
def basenameOf (p : Str) : Str :=
  match splitLast p '/' with
  | none => p
  | some (_, rest) => rest

/-- The extension of a path: from the last dot of the basename to its end,
empty when there is no dot or the only dot leads the basename.  Models the
Node path helper. -/
def extnameOf (p : Str) : Str :=
  match splitLast (basenameOf p) '.' with
  | none => []
  | some (pre, ext) => if pre = [] then [] else '.' :: ext

/-- extractResumeText of server.js: text files are read directly, PDF
files go through the PDF parser, other extensions get a placeholder; any
read or parse error is caught and yields the fallback message.  File
system and PDF library are oracles, `none` modelling a thrown error. -/
def extractResumeText (readFile pdfParse : Str → Option Str) (filePath : Str) : Str :=
  let fileExt := (extnameOf filePath).map Char.toLower
  if fileExt = (".txt").toList then
    match readFile filePath with
    | some s => s
    | none => ("Unable to extract text from ").toList ++ basenameOf filePath
  else if fileExt = (".pdf").toList then
    match readFile filePath with
    | none => ("Unable to extract text from ").toList ++ basenameOf filePath
    | some buf =>
      match pdfParse buf with
      | none => ("Unable to extract text from ").toList ++ basenameOf filePath
      | some t => t
  else
    ("Document file uploaded: ").toList ++ basenameOf filePath ++
      (". Please extract text manually.").toList

/-- extractResumeText of part_000: only text files are read; anything else
gets a placeholder; a read error yields the fixed fallback message. -/
def extractResumeTextOld (readFile : Str → Option Str) (filePath : Str) : Str :=
  if (extnameOf filePath).map Char.toLower = (".txt").toList then
    match readFile filePath with
    | some s => s
    | none => ("Unable to extract resume text").toList
  else ("Resume file uploaded: ").toList ++ basenameOf filePath

/-- The profile object produced by the registration analysis, with the
fields the handler reads (behavioral traits kept as an opaque blob). -/
structure ProfileData where
  technical_skills : List Str
  soft_skills : List Str
  work_style : Str
  experience_years : Int
  preferred_roles : List Str
  behavioral_traits : Str
deriving DecidableEq

/-- The fixed default profile used when no JSON is found or parsing
throws. -/
def defaultProfileData : ProfileData :=
  { technical_skills := []
    soft_skills := []
    work_style := ("Not specified").toList
    experience_years := 0
    preferred_roles := []
    behavioral_traits := [] }

/-- The parse stage of job-seeker registration: extract a JSON substring
from the completion response, parse it, default on a missing match or a
parse error.  Same code shape in both variants. -/
def profileDataOf (parse : Str → Option ProfileData) (resp : Str) : ProfileData :=
  match jsRegexExtract resp with
  | none => defaultProfileData
  | some sub =>
    match parse sub with
    | none => defaultProfileData
    | some v => v

/-- The job analysis object produced when posting a job. -/
structure JobAnalysisData where
  required_skills : List Str
  behavioral_traits : Str
  experience_level : Str
deriving DecidableEq

/-- The fixed default job analysis used when no JSON is found or parsing
throws. -/
def defaultJobAnalysisData : JobAnalysisData :=
  { required_skills := []
    behavioral_traits := []
    experience_level := ("mid").toList }

/-- The parse stage of job posting, in both variants. -/
def jobDataOf (parse : Str → Option JobAnalysisData) (resp : Str) : JobAnalysisData :=
  match jsRegexExtract resp with
  | none => defaultJobAnalysisData
  | some sub =>
    match parse sub with
    | none => defaultJobAnalysisData
    | some v => v

/-- The uploaded file as multer presents it to the handler. -/
structure FileInfo where
  path : Str
  filename : Str
deriving DecidableEq

/-- A parsed JavaScript value as far as the answers validation inspects
it: an array of answer strings, or anything that is not an array. -/
inductive JsVal where
  | arr (elems : List Str)
  | nonArr
deriving DecidableEq

/-- The request's answers field: a string still to be JSON-parsed, or an
already-structured value (non-strings are passed through unparsed). -/
inductive AnswersField where
  | str (s : Str)
  | val (v : JsVal)
deriving DecidableEq

/-- `typeof answers === 'string' ? JSON.parse(answers) : answers`; `none`
models `JSON.parse` throwing. -/
def parsedAnswers (parseJson : Str → Option JsVal) : AnswersField → Option JsVal
  | .str s => parseJson s
  | .val v => some v

/-- A database insert issued by the registration handler. -/
inductive DbWrite where
  | usersInsert (email : Str) (password_hash : Str) (user_type : Str) (full_name : Str)
  | seekersInsert (user_id : Nat) (skills : List Str) (experience_years : Int) (resume_text : Str)
deriving DecidableEq

/-- Outcome of POST /api/jobseeker/register: HTTP status, the success
flag of the body, how many completion-API calls were made, and the
database inserts issued, in order. -/
structure RegisterOutcome where
  status : Nat
  ok : Bool
  llmCalls : Nat
  dbWrites : List DbWrite
deriving DecidableEq

/-- The numbered answers block of the registration prompt. -/
def answersBlock (answers : List Str) : Str :=
  List.intercalate (['\n'])
    (answers.enum.map (fun p =>
      'Q' :: Nat.toDigits 10 (p.1 + 1) ++ (": ").toList ++ p.2))

/-- The registration analysis prompt of server.js. -/
def buildRegisterPrompt (resumeText : Str) (answers : List Str) : Str :=
  ("Analyze this job seeker profile:\n    \nResume: ").toList ++ resumeText ++
  ("\n\nBehavioral Answers:\n").toList ++ answersBlock answers ++
  ("\n\nProvide a JSON response with:\n\x7b\n  \"technical_skills\": [\"skill1\", \"skill2\", ...],\n  \"soft_skills\": [\"skill1\", \"skill2\", ...],\n  \"work_style\": \"description\",\n  \"experience_years\": 3,\n  \"preferred_roles\": [\"role1\", \"role2\", ...],\n  \"behavioral_traits\": \x7b\n    \"teamwork\": \"high/medium/low\",\n    \"leadership\": \"high/medium/low\",\n    \"adaptability\": \"high/medium/low\"\n  \x7d\n\x7d").toList

/-- POST /api/jobseeker/register (server.js shape; part_000 differs only
in using the synchronous text extraction): the four validation checks run,
in order, before the completion-API call and before any insert; the
analysis parse stage falls back to the default profile; then the users and
job_seekers inserts are issued, an insert error (`none` id) aborting with
a 500 after the writes already issued. -/
def registerHandler (bhash : Str → Str) (readFile pdfParse : Str → Option Str)
    (parseJson : Str → Option JsVal) (parseProfile : Str → Option ProfileData)
    (llm : Str → Str) (userIns : Option Nat) (seekerIns : Option Nat)
    (name email : Str) (password : Option Str) (answers : AnswersField)
    (resumeFile : Option FileInfo) : RegisterOutcome :=
  match resumeFile with
  | none => { status := 400, ok := false, llmCalls := 0, dbWrites := [] }
  | some rfile =>
    match password with
    | none => { status := 400, ok := false, llmCalls := 0, dbWrites := [] }
    | some pw =>
      if pw.length < 6 then
        { status := 400, ok := false, llmCalls := 0, dbWrites := [] }
      else
        let hashed := bhash pw
        let resumeText := extractResumeText readFile pdfParse rfile.path
        match parsedAnswers parseJson answers with
        | none => { status := 400, ok := false, llmCalls := 0, dbWrites := [] }
        | some (.nonArr) => { status := 400, ok := false, llmCalls := 0, dbWrites := [] }
        | some (.arr answerList) =>
          let resp := llm (buildRegisterPrompt resumeText answerList)
          let profile := profileDataOf parseProfile resp
          let uWrite := DbWrite.usersInsert email hashed (("job_seeker").toList) name
          match userIns with
          | none => { status := 500, ok := false, llmCalls := 1, dbWrites := [uWrite] }
          | some uid =>
            let sWrite := DbWrite.seekersInsert uid
              (profile.technical_skills ++ profile.soft_skills)
              profile.experience_years resumeText
            match seekerIns with
            | none => { status := 500, ok := false, llmCalls := 1, dbWrites := [uWrite, sWrite] }
            | some _ => { status := 200, ok := true, llmCalls := 1, dbWrites := [uWrite, sWrite] }

/-- A users-table row as the login handler reads it. -/
structure LoginUser where
  id : Nat
  email : Str
  password_hash : Str
  user_type : Str
  full_name : Str
  created_at : Str
deriving DecidableEq

/-- The login response body: missing-field 400, the invalid-credentials
message, or the user payload. -/
inductive LoginBody where
  | missingFields (msg : Str)
  | invalidCred (msg : Str)
  | okUser (id : Nat) (email : Str) (fullName : Str) (userType : Str)
      (createdAt : Str) (profile : Option Str)
deriving DecidableEq

/-- An HTTP response of POST /api/login. -/
structure LoginResp where
  status : Nat
  body : LoginBody
deriving DecidableEq

/-- POST /api/login, identical in both variants: missing fields give 400;
an unknown email (the single-row lookup errors or returns no user) and a
failed bcrypt comparison each return 401 with their own literal of the
same body; on success the profile for the user type is attached. -/
def loginHandler (lookup : Str → Option LoginUser) (bcompare : Str → Str → Bool)
    (profileOf : LoginUser → Option Str) (email password : Str) : LoginResp :=
  if email = [] ∨ password = [] then
    { status := 400, body := .missingFields (("Email and password are required").toList) }
  else
    match lookup email with
    | none =>
      { status := 401, body := .invalidCred (("Invalid email or password").toList) }
    | some user =>
      if bcompare password user.password_hash = false then
        { status := 401, body := .invalidCred (("Invalid email or password").toList) }
      else
        { status := 200
          body := .okUser user.id user.email user.full_name user.user_type
            user.created_at (profileOf user) }

/-- A fixed timestamp used as the clock oracle in concrete runs. -/
def nowEx : Str := ("2025-01-01T00:00:00.000Z").toList

/-- A concrete job seeker row. -/
def seekerEx : Seeker :=
  { id := 1
    full_name := ("Ann Lee").toList
    email := ("ann@example.com").toList
    skills := ("sql, python").toList
    experience_years := ("3").toList
    preferred_roles := ("analyst").toList
    behavioral_traits := ("teamwork high").toList }

/-- A second concrete job seeker row. -/
def seekerEx2 : Seeker :=
  { id := 2
    full_name := ("Bo Tan").toList
    email := ("bo@example.com").toList
    skills := ("java").toList
    experience_years := ("5").toList
    preferred_roles := ("engineer").toList
    behavioral_traits := ("leadership high").toList }

/-- A concrete job listing. -/
def jobEx : Job :=
  { id := 10
    title := ("Engineer").toList
    company_name := ("Acme").toList
    location := ("SG").toList
    salary_range := ("100k").toList
    required_skills := ("sql").toList
    behavioral_traits := ("teamwork").toList
    description := ("build things").toList }

/-- A second concrete job listing. -/
def jobEx2 : Job :=
  { id := 11
    title := ("Analyst").toList
    company_name := ("Beta").toList
    location := ("KL").toList
    salary_range := ("80k").toList
    required_skills := ("excel").toList
    behavioral_traits := ("independence").toList
    description := ("analyse things").toList }

/-- A response text containing one brace-delimited region. -/
def goodResp : Str := [lbrace, 's', rbrace]

/-- The match data a concrete parse oracle assigns to `goodResp`. -/
def mdEx : MatchData :=
  { match_score := mkRat 17 20
    technical_fit := mkRat 9 10
    behavioral_fit := mkRat 4 5
    explanation := ("skills align").toList }

/-- A completion oracle answering every prompt with `goodResp`. -/
def llmAll : Str → Str := fun _ => goodResp

/-- A completion oracle answering with JSON only for the server.js match
prompt of `seekerEx` and `jobEx` and with brace-free text otherwise. -/
def llmEx : Str → Str :=
  fun p => if p = buildMatchPrompt seekerEx jobEx then goodResp
    else ("no json").toList

/-- A parse oracle succeeding only on `goodResp`. -/
def pmEx : Str → Option MatchData :=
  fun s => if s = goodResp then some mdEx else none

/-- A parse oracle that always throws. -/
def pmNone : Str → Option MatchData := fun _ => none

/-- A response holding two brace-delimited regions. -/
def exTwoObjs : Str := [lbrace, 'a', rbrace, ' ', lbrace, 'b', rbrace]

/-- A concrete users-table row. -/
def userEx : LoginUser :=
  { id := 7
    email := ("ann@example.com").toList
    password_hash := ("someBcryptHash").toList
    user_type := ("job_seeker").toList
    full_name := ("Ann Lee").toList
    created_at := ("2024-12-01").toList }

/-- Match data with one explanation text. -/
def mdExplA : MatchData :=
  { match_score := mkRat 4 5
    technical_fit := mkRat 4 5
    behavioral_fit := mkRat 4 5
    explanation := ("strong skills overlap").toList }

/-- The same match data with a different explanation text. -/
def mdExplB : MatchData :=
  { match_score := mkRat 4 5
    technical_fit := mkRat 4 5
    behavioral_fit := mkRat 4 5
    explanation := ("different reasoning").toList }

/-- C4 (counterexample): with two brace-delimited regions in the response,
the regex does not select the earliest JSON object: on the text made of a
region, a space and a second region, the handed substring is the whole
text, not the earliest region. -/
theorem C4_cex_not_first_region :
    jsRegexExtract exTwoObjs = some exTwoObjs ∧
    firstBraceRegion exTwoObjs = some [lbrace, 'a', rbrace] ∧
    exTwoObjs ≠ [lbrace, 'a', rbrace] := by decide

/-- C4 (amended): the substring handed to the JSON parser spans from the
first left brace of the response to the last right brace: any extracted
substring starts with a left brace, ends with a right brace, is preceded
by no left brace and followed by no right brace, so it covers every
brace-delimited region rather than only the earliest one. -/
theorem C4_extract_first_to_last (s t : Str) (h : jsRegexExtract s = some t) :
    ∃ pre mid post, s = pre ++ t ++ post ∧ t = lbrace :: mid ++ [rbrace] ∧
      lbrace ∉ pre ∧ rbrace ∉ post := by
  unfold jsRegexExtract at h
  split at h
  · simp at h
  · rename_i pre1 rest heq1
    split at h
    · simp at h
    · rename_i mid post heq2
      simp only [Option.some.injEq] at h
      obtain ⟨hs1, hnp⟩ := splitFirst_spec s lbrace pre1 rest heq1
      obtain ⟨hs2, hnq⟩ := splitLast_spec rest rbrace mid post heq2
      refine ⟨pre1, mid, post, ?_, ?_, hnp, hnq⟩
      · rw [hs1, hs2, ← h]
        simp
      · exact h.symm

/-- C4 (witness): the amended theorem applied to the two-region text. -/
theorem C4_extract_first_to_last_witness :
    ∃ pre mid post, exTwoObjs = pre ++ exTwoObjs ++ post ∧
      exTwoObjs = lbrace :: mid ++ [rbrace] ∧
      lbrace ∉ pre ∧ rbrace ∉ post :=
  C4_extract_first_to_last exTwoObjs exTwoObjs (by decide)

/-- C10: resume text extraction is total in both variants; its value is
always one of the specified outcomes: the file contents of a text file,
the parsed text of a PDF file (server.js variant), the placeholder for
other extensions, or the fallback message on a read or parse error. -/
theorem C10_extract_resume_text_cases :
    ∀ (readFile pdfParse : Str → Option Str) (filePath : Str),
      ((∃ s, (extnameOf filePath).map Char.toLower = (".txt").toList ∧
          readFile filePath = some s ∧
          extractResumeText readFile pdfParse filePath = s) ∨
        (∃ s t, (extnameOf filePath).map Char.toLower = (".pdf").toList ∧
          readFile filePath = some s ∧ pdfParse s = some t ∧
          extractResumeText readFile pdfParse filePath = t) ∨
        extractResumeText readFile pdfParse filePath =
          ("Unable to extract text from ").toList ++ basenameOf filePath ∨
        ((extnameOf filePath).map Char.toLower ≠ (".txt").toList ∧
          (extnameOf filePath).map Char.toLower ≠ (".pdf").toList ∧
          extractResumeText readFile pdfParse filePath =
            ("Document file uploaded: ").toList ++ basenameOf filePath ++
              (". Please extract text manually.").toList)) ∧
      ((∃ s, (extnameOf filePath).map Char.toLower = (".txt").toList ∧
          readFile filePath = some s ∧
          extractResumeTextOld readFile filePath = s) ∨
        extractResumeTextOld readFile filePath =
          ("Unable to extract resume text").toList ∨
        ((extnameOf filePath).map Char.toLower ≠ (".txt").toList ∧
          extractResumeTextOld readFile filePath =
            ("Resume file uploaded: ").toList ++ basenameOf filePath)) := by
  intro rf pp p
  constructor
  · by_cases h1 : (extnameOf p).map Char.toLower = (".txt").toList
    · cases hrf : rf p with
      | none =>
        have hE : extractResumeText rf pp p =
            ("Unable to extract text from ").toList ++ basenameOf p := by
          unfold extractResumeText; rw [if_pos h1, hrf]
        right; right; left; exact hE
      | some s =>
        have hE : extractResumeText rf pp p = s := by
          unfold extractResumeText; rw [if_pos h1, hrf]
        left; exact ⟨s, h1, rfl, hE⟩
    · by_cases h2 : (extnameOf p).map Char.toLower = (".pdf").toList
      · cases hrf : rf p with
        | none =>
          have hE : extractResumeText rf pp p =
              ("Unable to extract text from ").toList ++ basenameOf p := by
            unfold extractResumeText; rw [if_neg h1, if_pos h2, hrf]
          right; right; left; exact hE
        | some s =>
          cases hpp : pp s with
          | none =>
            have hE : extractResumeText rf pp p =
                ("Unable to extract text from ").toList ++ basenameOf p := by
              unfold extractResumeText; rw [if_neg h1, if_pos h2, hrf]
              dsimp only
              rw [hpp]
            right; right; left; exact hE
          | some t =>
            have hE : extractResumeText rf pp p = t := by
              unfold extractResumeText; rw [if_neg h1, if_pos h2, hrf]
              dsimp only
              rw [hpp]
            right; left; exact ⟨s, t, h2, rfl, hpp, hE⟩
      · have hE : extractResumeText rf pp p =
            ("Document file uploaded: ").toList ++ basenameOf p ++
              (". Please extract text manually.").toList := by
          unfold extractResumeText; rw [if_neg h1, if_neg h2]
        right; right; right; exact ⟨h1, h2, hE⟩
  · by_cases h1 : (extnameOf p).map Char.toLower = (".txt").toList
    · cases hrf : rf p with
      | none =>
        have hE : extractResumeTextOld rf p =
            ("Unable to extract resume text").toList := by
          unfold extractResumeTextOld; rw [if_pos h1, hrf]
        right; left; exact hE
      | some s =>
        have hE : extractResumeTextOld rf p = s := by
          unfold extractResumeTextOld; rw [if_pos h1, hrf]
        left; exact ⟨s, h1, rfl, hE⟩
    · have hE : extractResumeTextOld rf p =
          ("Resume file uploaded: ").toList ++ basenameOf p := by
        unfold extractResumeTextOld; rw [if_neg h1]
      right; right; exact ⟨h1, hE⟩

/-- C2: in every handler that calls the completion API, when the regex
finds no JSON object in the response, or parsing and field access on the
extracted substring throw, the handler continues with the fixed default
object: the default profile at registration, the default job analysis at
job posting, and the default 0.70 scores with a default explanation in
both scoring fan-outs. -/
theorem C2_parse_failure_defaults :
    ∀ (pp : Str → Option ProfileData) (pj : Str → Option JobAnalysisData)
      (pm : Str → Option MatchData) (resp : Str) (llm : Str → Str)
      (seeker : Seeker) (job : Job),
      (jsRegexExtract resp = none →
        profileDataOf pp resp = defaultProfileData ∧
        jobDataOf pj resp = defaultJobAnalysisData) ∧
      (∀ sub, jsRegexExtract resp = some sub → pp sub = none →
        profileDataOf pp resp = defaultProfileData) ∧
      (∀ sub, jsRegexExtract resp = some sub → pj sub = none →
        jobDataOf pj resp = defaultJobAnalysisData) ∧
      (jsRegexExtract (llm (buildMatchPrompt seeker job)) = none →
        scoreJob llm pm seeker job = entryOfMatchData job defaultMatchData ∧
        (scoreJob llm pm seeker job).matchScore = 70) ∧
      (∀ sub, jsRegexExtract (llm (buildMatchPrompt seeker job)) = some sub →
        pm sub = none →
        scoreJob llm pm seeker job = matchCatchEntry job ∧
        (scoreJob llm pm seeker job).matchScore = 70) ∧
      (jsRegexExtract (llm (buildCandidatePrompt job seeker)) = none →
        scoreSeeker llm pm job seeker = candEntryOfMatchData seeker defaultMatchData ∧
        (scoreSeeker llm pm job seeker).matchScore = 70) ∧
      (∀ sub, jsRegexExtract (llm (buildCandidatePrompt job seeker)) = some sub →
        pm sub = none →
        scoreSeeker llm pm job seeker = candCatchEntry seeker ∧
        (scoreSeeker llm pm job seeker).matchScore = 70) := by
  intro pp pj pm resp llm seeker job
  have hdef : jsRound100 (mkRat 7 10) = 70 := by decide
  refine ⟨?_, ?_, ?_, ?_, ?_, ?_, ?_⟩
  · intro h
    constructor
    · unfold profileDataOf; rw [h]
    · unfold jobDataOf; rw [h]
  · intro sub h hp
    unfold profileDataOf; rw [h]; dsimp only; rw [hp]
  · intro sub h hp
    unfold jobDataOf; rw [h]; dsimp only; rw [hp]
  · intro h
    have hE : scoreJob llm pm seeker job = entryOfMatchData job defaultMatchData := by
      unfold scoreJob; rw [h]
    exact ⟨hE, by rw [hE]; exact hdef⟩
  · intro sub h hp
    have hE : scoreJob llm pm seeker job = matchCatchEntry job := by
      unfold scoreJob; rw [h]; dsimp only; rw [hp]
    exact ⟨hE, by rw [hE]; rfl⟩
  · intro h
    have hE : scoreSeeker llm pm job seeker = candEntryOfMatchData seeker defaultMatchData := by
      unfold scoreSeeker; rw [h]
    exact ⟨hE, by rw [hE]; exact hdef⟩
  · intro sub h hp
    have hE : scoreSeeker llm pm job seeker = candCatchEntry seeker := by
      unfold scoreSeeker; rw [h]; dsimp only; rw [hp]
    exact ⟨hE, by rw [hE]; rfl⟩

/-- C2 (witness): the defaults at a brace-free response and at an
always-throwing parser, on concrete inputs. -/
theorem C2_parse_failure_defaults_witness :
    profileDataOf (fun _ => none) (("no json here").toList) = defaultProfileData ∧
    jobDataOf (fun _ => none) (("no json here").toList) = defaultJobAnalysisData ∧
    scoreJob llmAll pmNone seekerEx jobEx = matchCatchEntry jobEx ∧
    scoreSeeker (fun _ => (("plain text").toList)) pmNone jobEx seekerEx =
      candEntryOfMatchData seekerEx defaultMatchData := by
  have h1 := C2_parse_failure_defaults (fun _ => none) (fun _ => none) pmNone
    (("no json here").toList) llmAll seekerEx jobEx
  have h2 := C2_parse_failure_defaults (fun _ => none) (fun _ => none) pmNone
    (("no json here").toList) (fun _ => (("plain text").toList)) seekerEx jobEx
  refine ⟨(h1.1 (by decide)).1, (h1.1 (by decide)).2, ?_, ?_⟩
  · exact (h1.2.2.2.2.1 goodResp (by decide) (by decide)).1
  · exact (h2.2.2.2.2.2.1 (by decide)).1

/-- C9: a login attempt with an unknown email and one with a known email
but failing bcrypt comparison produce the same response: status 401 and
the same invalid-credentials body, so the two causes cannot be told apart
from the response. -/
theorem C9_login_failure_indistinguishable :
    ∀ (lookup1 lookup2 : Str → Option LoginUser) (bc1 bc2 : Str → Str → Bool)
      (pf1 pf2 : LoginUser → Option Str) (email password : Str) (u : LoginUser),
      email ≠ [] → password ≠ [] →
      lookup1 email = none →
      lookup2 email = some u → bc2 password u.password_hash = false →
      loginHandler lookup1 bc1 pf1 email password =
        { status := 401
          body := .invalidCred (("Invalid email or password").toList) } ∧
      loginHandler lookup2 bc2 pf2 email password =
        { status := 401
          body := .invalidCred (("Invalid email or password").toList) } ∧
      loginHandler lookup1 bc1 pf1 email password =
        loginHandler lookup2 bc2 pf2 email password := by
  intro lookup1 lookup2 bc1 bc2 pf1 pf2 email password u he hp h1 h2 hbc
  have hne : ¬ (email = [] ∨ password = []) := by
    intro hor; rcases hor with h | h
    · exact he h
    · exact hp h
  have hL1 : loginHandler lookup1 bc1 pf1 email password =
      { status := 401
        body := .invalidCred (("Invalid email or password").toList) } := by
    unfold loginHandler; rw [if_neg hne, h1]
  have hL2 : loginHandler lookup2 bc2 pf2 email password =
      { status := 401
        body := .invalidCred (("Invalid email or password").toList) } := by
    unfold loginHandler; rw [if_neg hne, h2]; dsimp only; rw [hbc]; simp
  exact ⟨hL1, hL2, by rw [hL1, hL2]⟩

/-- C9 (witness): the indistinguishability at a concrete email, password
and stored user. -/
theorem C9_login_failure_indistinguishable_witness :
    loginHandler (fun _ => none) (fun _ _ => false) (fun _ => none)
        (("ann@example.com").toList) (("secret1").toList) =
      { status := 401
        body := .invalidCred (("Invalid email or password").toList) } ∧
    loginHandler (fun _ => some userEx) (fun _ _ => false) (fun _ => none)
        (("ann@example.com").toList) (("secret1").toList) =
      { status := 401
        body := .invalidCred (("Invalid email or password").toList) } := by
  have h := C9_login_failure_indistinguishable (fun _ => none) (fun _ => some userEx)
    (fun _ _ => false) (fun _ _ => false) (fun _ => none) (fun _ => none)
    (("ann@example.com").toList) (("secret1").toList) userEx
    (by decide) (by decide) rfl rfl rfl
  exact ⟨h.1, h.2.1⟩

/-- C6: every validation failure of job-seeker registration (missing
resume file, missing or short password, answers failing to parse, answers
not an array) responds 400 with success false, makes no completion-API
call and issues no database insert. -/
theorem C6_register_validation_before_effects :
    ∀ (bhash : Str → Str) (readFile pdfParse : Str → Option Str)
      (parseJson : Str → Option JsVal) (parseProfile : Str → Option ProfileData)
      (llm : Str → Str) (userIns seekerIns : Option Nat)
      (name email : Str) (password : Option Str) (answers : AnswersField)
      (resumeFile : Option FileInfo),
      (resumeFile = none ∨ password = none ∨
        (∃ pw, password = some pw ∧ pw.length < 6) ∨
        (∃ s, answers = AnswersField.str s ∧ parseJson s = none) ∨
        parsedAnswers parseJson answers = some JsVal.nonArr) →
      registerHandler bhash readFile pdfParse parseJson parseProfile llm
          userIns seekerIns name email password answers resumeFile =
        { status := 400, ok := false, llmCalls := 0, dbWrites := [] } := by
  intro bhash rf pp pj pprof llm uIns sIns name email password answers resumeFile hbad
  cases resumeFile with
  | none => rfl
  | some rfile =>
    cases password with
    | none => rfl
    | some pw =>
      unfold registerHandler
      dsimp only
      by_cases hlen : pw.length < 6
      · rw [if_pos hlen]
      · have hrest : (∃ s, answers = AnswersField.str s ∧ pj s = none) ∨
            parsedAnswers pj answers = some JsVal.nonArr := by
          rcases hbad with h | h | h | h | h
          · exact absurd h (by simp)
          · exact absurd h (by simp)
          · obtain ⟨pw2, hpw2, hl⟩ := h
            rw [Option.some.injEq] at hpw2
            exact absurd (hpw2 ▸ hl) hlen
          · exact Or.inl h
          · exact Or.inr h
        rw [if_neg hlen]
        rcases hrest with ⟨s, hs, hpj⟩ | h
        · subst hs
          dsimp only [parsedAnswers]
          rw [hpj]
        · rw [h]

/-- C6 (witness): a request with no resume file is rejected with 400 and
no side effects. -/
theorem C6_register_validation_before_effects_witness :
    registerHandler (fun s => s) (fun _ => none) (fun _ => none) (fun _ => none)
        (fun _ => none) (fun p => p) (some 1) (some 2)
        (("Ann").toList) (("ann@example.com").toList)
        (some (("secret1").toList))
        (AnswersField.str (("not an array").toList)) none =
      { status := 400, ok := false, llmCalls := 0, dbWrites := [] } :=
  C6_register_validation_before_effects (fun s => s) (fun _ => none) (fun _ => none)
    (fun _ => none) (fun _ => none) (fun p => p) (some 1) (some 2)
    (("Ann").toList) (("ann@example.com").toList) (some (("secret1").toList))
    (AnswersField.str (("not an array").toList)) none (Or.inl rfl)

theorem scoreJob_matchScore_of_fail (llm : Str → Str) (pm : Str → Option MatchData)
    (seeker : Seeker) (job : Job)
    (h : jsRegexExtract (llm (buildMatchPrompt seeker job)) = none ∨
      (∃ sub, jsRegexExtract (llm (buildMatchPrompt seeker job)) = some sub ∧
        pm sub = none)) :
    (scoreJob llm pm seeker job).matchScore = 70 := by
  rcases h with h | ⟨sub, h, hp⟩
  · unfold scoreJob
    rw [h]
    show jsRound100 (mkRat 7 10) = 70
    decide
  · unfold scoreJob
    rw [h]
    dsimp only
    rw [hp]
    rfl

theorem scoreJobOld_matchScore_of_fail (llm : Str → Str) (pm : Str → Option MatchData)
    (seeker : Seeker) (job : Job)
    (h : jsRegexExtract (llm (buildMatchPromptOld seeker job)) = none ∨
      (∃ sub, jsRegexExtract (llm (buildMatchPromptOld seeker job)) = some sub ∧
        pm sub = none)) :
    (scoreJobOld llm pm seeker job).matchScore = 70 := by
  rcases h with h | ⟨sub, h, hp⟩
  · unfold scoreJobOld
    rw [h]
    show jsRound100 (mkRat 7 10) = 70
    decide
  · unfold scoreJobOld
    rw [h]
    dsimp only
    rw [hp]
    rfl

/-- C8: in GET /api/matches/:seekerId (both variants), a job whose
completion response yields no parseable JSON gets the fixed default score
0.70, which is below the 0.75 threshold, so its entry never appears in
the returned matches list. -/
theorem C8_default_score_excluded :
    ∀ (llm : Str → Str) (pm : Str → Option MatchData) (now : Str)
      (upsertOk : Bool) (seekerId : Nat) (seeker : Seeker)
      (jobs : List Job) (table : List MatchRow) (job : Job),
      ((jsRegexExtract (llm (buildMatchPrompt seeker job)) = none ∨
          (∃ sub, jsRegexExtract (llm (buildMatchPrompt seeker job)) = some sub ∧
            pm sub = none)) →
        (scoreJob llm pm seeker job).matchScore = 70 ∧ ((70:Int) < 75) ∧
        fmtMatch (scoreJob llm pm seeker job) ∉
          (matchesHandler llm pm now upsertOk seekerId seeker jobs table).matchList) ∧
      ((jsRegexExtract (llm (buildMatchPromptOld seeker job)) = none ∨
          (∃ sub, jsRegexExtract (llm (buildMatchPromptOld seeker job)) = some sub ∧
            pm sub = none)) →
        (scoreJobOld llm pm seeker job).matchScore = 70 ∧
        scoreJobOld llm pm seeker job ∉
          (matchesHandlerOld llm pm seeker jobs table).matchList) := by
  intro llm pm now upsertOk seekerId seeker jobs table job
  constructor
  · intro h
    have h70 := scoreJob_matchScore_of_fail llm pm seeker job h
    refine ⟨h70, by omega, ?_⟩
    intro hmem
    have hml : (matchesHandler llm pm now upsertOk seekerId seeker jobs table).matchList =
        (List.insertionSort scoreDescM
          ((jobs.map (scoreJob llm pm seeker)).filter
            (fun m => 75 ≤ m.matchScore))).map fmtMatch := rfl
    rw [hml] at hmem
    obtain ⟨m2, hm2, hfm⟩ := List.mem_map.mp hmem
    have hm2g : m2 ∈ (jobs.map (scoreJob llm pm seeker)).filter
        (fun m => 75 ≤ m.matchScore) :=
      (List.perm_insertionSort scoreDescM _).mem_iff.mp hm2
    have h75 : 75 ≤ m2.matchScore :=
      of_decide_eq_true (List.mem_filter.mp hm2g).2
    have hsc : m2.matchScore = (scoreJob llm pm seeker job).matchScore :=
      congrArg FormattedMatch.matchScorePct hfm
    rw [hsc, h70] at h75
    omega
  · intro h
    have h70 := scoreJobOld_matchScore_of_fail llm pm seeker job h
    refine ⟨h70, ?_⟩
    intro hmem
    have hml : (matchesHandlerOld llm pm seeker jobs table).matchList =
        List.insertionSort scoreDescM
          ((jobs.map (scoreJobOld llm pm seeker)).filter
            (fun m => 75 ≤ m.matchScore)) := rfl
    rw [hml] at hmem
    have hmf : scoreJobOld llm pm seeker job ∈
        (jobs.map (scoreJobOld llm pm seeker)).filter (fun m => 75 ≤ m.matchScore) :=
      (List.perm_insertionSort scoreDescM _).mem_iff.mp hmem
    have h75 : 75 ≤ (scoreJobOld llm pm seeker job).matchScore :=
      of_decide_eq_true (List.mem_filter.mp hmf).2
    rw [h70] at h75
    omega

/-- C8 (witness): with a brace-free completion response, the job's entry
scores 70 and is absent from the returned list, in both variants. -/
theorem C8_default_score_excluded_witness :
    (scoreJob (fun _ => (("nothing").toList)) pmNone seekerEx jobEx).matchScore = 70 ∧
    fmtMatch (scoreJob (fun _ => (("nothing").toList)) pmNone seekerEx jobEx) ∉
      (matchesHandler (fun _ => (("nothing").toList)) pmNone nowEx true 1 seekerEx
        [jobEx] []).matchList ∧
    scoreJobOld (fun _ => (("nothing").toList)) pmNone seekerEx jobEx ∉
      (matchesHandlerOld (fun _ => (("nothing").toList)) pmNone seekerEx
        [jobEx] []).matchList := by
  have h := C8_default_score_excluded (fun _ => (("nothing").toList)) pmNone nowEx
    true 1 seekerEx [jobEx] [] jobEx
  have h1 := h.1 (Or.inl (by decide))
  have h2 := h.2 (Or.inl (by decide))
  exact ⟨h1.1, h1.2.2, h2.2⟩

/-- C1: in GET /api/matches/:seekerId (both variants) the returned matches
list is exactly the scored jobs whose match score meets the 0.75 (75
percent) threshold, sorted in descending order of match score; entries
below the threshold are never in the returned list.  (Scores are held in
hundredths; the server.js response applies the percent formatting map to
the sorted list.) -/
theorem C1_matches_threshold_and_sort :
    ∀ (llm : Str → Str) (pm : Str → Option MatchData) (now : Str)
      (upsertOk : Bool) (seekerId : Nat) (seeker : Seeker)
      (jobs : List Job) (table : List MatchRow),
      ((matchesHandler llm pm now upsertOk seekerId seeker jobs table).matchList =
        (List.insertionSort scoreDescM
          ((jobs.map (scoreJob llm pm seeker)).filter
            (fun m => 75 ≤ m.matchScore))).map fmtMatch) ∧
      (List.insertionSort scoreDescM
          ((jobs.map (scoreJob llm pm seeker)).filter
            (fun m => 75 ≤ m.matchScore))).Perm
        ((jobs.map (scoreJob llm pm seeker)).filter (fun m => 75 ≤ m.matchScore)) ∧
      List.Sorted scoreDescM
        (List.insertionSort scoreDescM
          ((jobs.map (scoreJob llm pm seeker)).filter
            (fun m => 75 ≤ m.matchScore))) ∧
      (∀ m ∈ List.insertionSort scoreDescM
          ((jobs.map (scoreJob llm pm seeker)).filter
            (fun m => 75 ≤ m.matchScore)), 75 ≤ m.matchScore) ∧
      (∀ m, m.matchScore < 75 →
        m ∉ List.insertionSort scoreDescM
          ((jobs.map (scoreJob llm pm seeker)).filter
            (fun m => 75 ≤ m.matchScore))) ∧
      ((matchesHandlerOld llm pm seeker jobs table).matchList =
        List.insertionSort scoreDescM
          ((jobs.map (scoreJobOld llm pm seeker)).filter
            (fun m => 75 ≤ m.matchScore))) ∧
      (matchesHandlerOld llm pm seeker jobs table).matchList.Perm
        ((jobs.map (scoreJobOld llm pm seeker)).filter (fun m => 75 ≤ m.matchScore)) ∧
      List.Sorted scoreDescM (matchesHandlerOld llm pm seeker jobs table).matchList ∧
      (∀ m ∈ (matchesHandlerOld llm pm seeker jobs table).matchList,
        75 ≤ m.matchScore) ∧
      (∀ m, m.matchScore < 75 →
        m ∉ (matchesHandlerOld llm pm seeker jobs table).matchList) := by
  intro llm pm now upsertOk seekerId seeker jobs table
  refine ⟨rfl, List.perm_insertionSort scoreDescM _,
    List.sorted_insertionSort scoreDescM _, ?_, ?_, rfl,
    List.perm_insertionSort scoreDescM _,
    List.sorted_insertionSort scoreDescM _, ?_, ?_⟩
  · intro m hm
    have hmf := (List.perm_insertionSort scoreDescM _).mem_iff.mp hm
    exact of_decide_eq_true (List.mem_filter.mp hmf).2
  · intro m hlt hm
    have hmf := (List.perm_insertionSort scoreDescM _).mem_iff.mp hm
    have h75 : (75:Int) ≤ m.matchScore := of_decide_eq_true (List.mem_filter.mp hmf).2
    omega
  · intro m hm
    have hmf := (List.perm_insertionSort scoreDescM _).mem_iff.mp hm
    exact of_decide_eq_true (List.mem_filter.mp hmf).2
  · intro m hlt hm
    have hmf := (List.perm_insertionSort scoreDescM _).mem_iff.mp hm
    have h75 : (75:Int) ≤ m.matchScore := of_decide_eq_true (List.mem_filter.mp hmf).2
    omega

/-- C1 (witness): with one job scoring 0.85 and one with an unparseable
response (default 0.70), only the first is returned, and the default entry
is excluded by the threshold. -/
theorem C1_matches_threshold_and_sort_witness :
    (matchesHandler llmEx pmEx nowEx true 1 seekerEx [jobEx, jobEx2] []).matchList =
      [fmtMatch (entryOfMatchData jobEx mdEx)] ∧
    (scoreJob llmEx pmEx seekerEx jobEx2).matchScore < 75 ∧
    scoreJob llmEx pmEx seekerEx jobEx2 ∉
      List.insertionSort scoreDescM
        (([jobEx, jobEx2].map (scoreJob llmEx pmEx seekerEx)).filter
          (fun m => 75 ≤ m.matchScore)) := by
  have h := C1_matches_threshold_and_sort llmEx pmEx nowEx true 1 seekerEx
    [jobEx, jobEx2] []
  refine ⟨?_, by decide, h.2.2.2.2.1 (scoreJob llmEx pmEx seekerEx jobEx2) (by decide)⟩
  rw [h.1]
  decide

theorem nodupKeys_upsertRow (table : List MatchRow) (r : MatchRow)
    (h : (table.map rowKey).Nodup) : ((upsertRow table r).map rowKey).Nodup := by
  unfold upsertRow
  split
  · have heq : (table.map (fun x => if rowKey x = rowKey r then r else x)).map rowKey
        = table.map rowKey := by
      rw [List.map_map]
      apply List.map_congr_left
      intro x _
      by_cases hk : rowKey x = rowKey r
      · show rowKey (if rowKey x = rowKey r then r else x) = rowKey x
        rw [if_pos hk, hk]
      · show rowKey (if rowKey x = rowKey r then r else x) = rowKey x
        rw [if_neg hk]
    rw [heq]
    exact h
  · rename_i hany
    rw [List.map_append]
    refine List.Nodup.append h (List.nodup_singleton _) ?_
    intro a ha hb
    obtain ⟨x, hx, hxa⟩ := List.mem_map.mp ha
    obtain ⟨y, hy, hya⟩ := List.mem_map.mp hb
    rw [List.mem_singleton] at hy
    subst hy
    apply hany
    rw [List.any_eq_true]
    exact ⟨x, hx, decide_eq_true (by rw [hxa, ← hya])⟩

theorem nodupKeys_upsertAll (rows table : List MatchRow)
    (h : (table.map rowKey).Nodup) : ((upsertAll table rows).map rowKey).Nodup := by
  induction rows generalizing table with
  | nil => exact h
  | cons r rest ih => exact ih (upsertRow table r) (nodupKeys_upsertRow table r h)

theorem mem_upsertRow_self (table : List MatchRow) (r : MatchRow) :
    r ∈ upsertRow table r := by
  unfold upsertRow
  split
  · rename_i hany
    obtain ⟨x, hx, hkey⟩ := List.any_eq_true.mp hany
    exact List.mem_map.mpr ⟨x, hx, by rw [if_pos (of_decide_eq_true hkey)]⟩
  · exact List.mem_append_right _ (List.mem_singleton_self r)

theorem mem_upsertRow_of_ne (table : List MatchRow) (r x : MatchRow)
    (hx : x ∈ table) (hne : rowKey x ≠ rowKey r) : x ∈ upsertRow table r := by
  unfold upsertRow
  split
  · exact List.mem_map.mpr ⟨x, hx, by rw [if_neg hne]⟩
  · exact List.mem_append_left _ hx

theorem mem_upsertAll_of_disjoint (rows : List MatchRow) (table : List MatchRow)
    (x : MatchRow) (hx : x ∈ table) (hne : ∀ r ∈ rows, rowKey x ≠ rowKey r) :
    x ∈ upsertAll table rows := by
  induction rows generalizing table with
  | nil => exact hx
  | cons r rest ih =>
    exact ih (upsertRow table r)
      (mem_upsertRow_of_ne table r x hx (hne r (List.mem_cons_self r rest)))
      (fun r2 hr2 => hne r2 (List.mem_cons_of_mem r hr2))

theorem mem_upsertAll_of_mem (rows : List MatchRow) (table : List MatchRow)
    (r : MatchRow) (hr : r ∈ rows) (hnd : (rows.map rowKey).Nodup) :
    r ∈ upsertAll table rows := by
  induction rows generalizing table with
  | nil => simp at hr
  | cons s rest ih =>
    simp only [List.map_cons, List.nodup_cons] at hnd
    rcases List.mem_cons.mp hr with heq | hmem
    · subst heq
      apply mem_upsertAll_of_disjoint rest (upsertRow table r) r
        (mem_upsertRow_self table r)
      intro r2 hr2 heq2
      exact hnd.1 (heq2 ▸ List.mem_map_of_mem rowKey hr2)
    · exact ih (upsertRow table s) hmem hnd.2

/-- C3 (counterexample): the persisted row does not carry the LLM
explanation: two match entries for the same job with the same scores but
different explanations produce the same row, so no row field holds the
explanation. -/
theorem C3_cex_row_drops_explanation :
    rowOfMatch 1 nowEx (entryOfMatchData jobEx mdExplA) =
      rowOfMatch 1 nowEx (entryOfMatchData jobEx mdExplB) ∧
    (entryOfMatchData jobEx mdExplA).explanation ≠
      (entryOfMatchData jobEx mdExplB).explanation := by decide

/-- C3 (amended): every persisted match row carries the LLM-assigned
score (and fits, keyed to the seeker and listing ids) but not the
explanation, and the upsert keyed on the (job_seeker_id, job_listing_id)
pair preserves key uniqueness: a table without duplicate key pairs never
gains one, so re-running matching updates rather than duplicates. -/
theorem C3_row_fields_and_upsert_unique (seekerId : Nat) (now : Str)
    (m : MatchEntry) (table rows : List MatchRow) :
    ((rowOfMatch seekerId now m).job_seeker_id = seekerId ∧
      (rowOfMatch seekerId now m).job_listing_id = m.jobId ∧
      (rowOfMatch seekerId now m).match_score = m.matchScore ∧
      (rowOfMatch seekerId now m).technical_fit = m.technicalFit ∧
      (rowOfMatch seekerId now m).behavioral_fit = m.behavioralFit) ∧
    ((table.map rowKey).Nodup → ((upsertAll table rows).map rowKey).Nodup) :=
  ⟨⟨rfl, rfl, rfl, rfl, rfl⟩, fun h => nodupKeys_upsertAll rows table h⟩

/-- C3 (witness): upserting a row whose key collides with an existing row
keeps the key set duplicate-free. -/
theorem C3_row_fields_and_upsert_unique_witness :
    ((upsertAll [rowOfMatch 1 nowEx (entryOfMatchData jobEx mdEx)]
        [rowOfMatch 1 nowEx (matchCatchEntry jobEx)]).map rowKey).Nodup :=
  (C3_row_fields_and_upsert_unique 1 nowEx (entryOfMatchData jobEx mdEx)
    [rowOfMatch 1 nowEx (entryOfMatchData jobEx mdEx)]
    [rowOfMatch 1 nowEx (matchCatchEntry jobEx)]).2 (by decide)

theorem scoreJob_jobId (llm : Str → Str) (pm : Str → Option MatchData)
    (seeker : Seeker) (job : Job) : (scoreJob llm pm seeker job).jobId = job.id := by
  unfold scoreJob
  cases jsRegexExtract (llm (buildMatchPrompt seeker job)) with
  | none => rfl
  | some sub =>
    dsimp only
    cases pm sub with
    | none => rfl
    | some md => rfl

theorem scoreSeeker_candidateId (llm : Str → Str) (pm : Str → Option MatchData)
    (job : Job) (seeker : Seeker) :
    (scoreSeeker llm pm job seeker).candidateId = seeker.id := by
  unfold scoreSeeker
  cases jsRegexExtract (llm (buildCandidatePrompt job seeker)) with
  | none => rfl
  | some sub =>
    dsimp only
    cases pm sub with
    | none => rfl
    | some md => rfl

theorem rows_keys_nodup_matches (seekerId : Nat) (now : Str)
    (good : List MatchEntry) (h : (good.map (fun m => m.jobId)).Nodup) :
    ((good.map (rowOfMatch seekerId now)).map rowKey).Nodup := by
  rw [List.map_map]
  have h1 : good.map (rowKey ∘ rowOfMatch seekerId now) =
      (good.map (fun m => m.jobId)).map (fun j => ((seekerId, j) : Nat × Nat)) := by
    rw [List.map_map]
    rfl
  rw [h1]
  exact List.Nodup.map (fun a b hab => by simpa using hab) h

theorem rows_keys_nodup_candidates (jobId : Nat) (now : Str)
    (results : List CandidateEntry)
    (h : (results.map (fun c => c.candidateId)).Nodup) :
    ((results.map (rowOfCandidate jobId now)).map rowKey).Nodup := by
  rw [List.map_map]
  have h1 : results.map (rowKey ∘ rowOfCandidate jobId now) =
      (results.map (fun c => c.candidateId)).map (fun i => ((i, jobId) : Nat × Nat)) := by
    rw [List.map_map]
    rfl
  rw [h1]
  exact List.Nodup.map (fun a b hab => by simpa using hab) h

theorem good_jobIds_nodup (llm : Str → Str) (pm : Str → Option MatchData)
    (seeker : Seeker) (jobs : List Job) (hnd : (jobs.map Job.id).Nodup)
    (p : MatchEntry → Bool) :
    (((jobs.map (scoreJob llm pm seeker)).filter p).map (fun m => m.jobId)).Nodup := by
  have hids : (jobs.map (scoreJob llm pm seeker)).map (fun m => m.jobId) =
      jobs.map Job.id := by
    rw [List.map_map]
    apply List.map_congr_left
    intro j _
    exact scoreJob_jobId llm pm seeker j
  refine List.Nodup.sublist
    (List.Sublist.map (fun m : MatchEntry => m.jobId) (List.filter_sublist _)) ?_
  rw [hids]
  exact hnd

theorem results_candidateIds_nodup (llm : Str → Str) (pm : Str → Option MatchData)
    (job : Job) (seekers : List Seeker) (hnd : (seekers.map Seeker.id).Nodup) :
    ((seekers.map (scoreSeeker llm pm job)).map (fun c => c.candidateId)).Nodup := by
  have hids : (seekers.map (scoreSeeker llm pm job)).map (fun c => c.candidateId) =
      seekers.map Seeker.id := by
    rw [List.map_map]
    apply List.map_congr_left
    intro s _
    exact scoreSeeker_candidateId llm pm job s
  rw [hids]
  exact hnd

/-- C5 (counterexample): in the part_000 variant of
GET /api/matches/:seekerId a successful run returns a non-empty matches
list while writing nothing: the matches table (empty here) is unchanged,
so the returned match has no persisted row. -/
theorem C5_cex_old_matches_unpersisted :
    (matchesHandlerOld llmAll pmEx seekerEx [jobEx] []).matchList ≠ [] ∧
    (matchesHandlerOld llmAll pmEx seekerEx [jobEx] []).table = [] := by decide

/-- C5 (amended): in the server.js matching endpoints, when the upsert
succeeds, every match result included in the response has a corresponding
persisted row in the resulting matches table (keyed to the seeker and
listing, carrying the same score); the part_000 matches endpoint persists
nothing, and on an upsert error server.js still responds without
persisting. -/
theorem C5_server_response_persisted :
    ∀ (llm : Str → Str) (pm : Str → Option MatchData) (now : Str)
      (seekerId : Nat) (seeker : Seeker) (jobs : List Job)
      (table : List MatchRow) (jobId : Nat) (job : Job) (seekers : List Seeker),
      ((jobs.map Job.id).Nodup →
        ∀ fm ∈ (matchesHandler llm pm now true seekerId seeker jobs table).matchList,
          ∃ row ∈ (matchesHandler llm pm now true seekerId seeker jobs table).table,
            row.job_seeker_id = seekerId ∧ row.job_listing_id = fm.jobId ∧
            row.match_score = fm.matchScorePct) ∧
      ((seekers.map Seeker.id).Nodup →
        ∀ fc ∈ (candidatesHandler llm pm now true jobId job seekers table).candidates,
          ∃ row ∈ (candidatesHandler llm pm now true jobId job seekers table).table,
            row.job_seeker_id = fc.candidateId ∧ row.job_listing_id = jobId ∧
            row.match_score = fc.matchScorePct) := by
  intro llm pm now seekerId seeker jobs table jobId job seekers
  constructor
  · intro hnd fm hfm
    have hml : (matchesHandler llm pm now true seekerId seeker jobs table).matchList =
        (List.insertionSort scoreDescM
          ((jobs.map (scoreJob llm pm seeker)).filter
            (fun m => 75 ≤ m.matchScore))).map fmtMatch := rfl
    rw [hml] at hfm
    obtain ⟨m, hmS, hfmEq⟩ := List.mem_map.mp hfm
    have hmG : m ∈ (jobs.map (scoreJob llm pm seeker)).filter
        (fun m => 75 ≤ m.matchScore) :=
      (List.perm_insertionSort scoreDescM _).mem_iff.mp hmS
    have hrowmem : rowOfMatch seekerId now m ∈
        ((jobs.map (scoreJob llm pm seeker)).filter
          (fun m => 75 ≤ m.matchScore)).map (rowOfMatch seekerId now) :=
      List.mem_map_of_mem (rowOfMatch seekerId now) hmG
    have hkeys := rows_keys_nodup_matches seekerId now _
      (good_jobIds_nodup llm pm seeker jobs hnd (fun m => 75 ≤ m.matchScore))
    have hlen : 0 < (((jobs.map (scoreJob llm pm seeker)).filter
        (fun m => 75 ≤ m.matchScore)).map (rowOfMatch seekerId now)).length :=
      List.length_pos_of_mem hrowmem
    have htab : (matchesHandler llm pm now true seekerId seeker jobs table).table =
        upsertAll table
          (((jobs.map (scoreJob llm pm seeker)).filter
            (fun m => 75 ≤ m.matchScore)).map (rowOfMatch seekerId now)) := by
      unfold matchesHandler
      dsimp only
      rw [if_pos hlen, if_pos rfl]
    refine ⟨rowOfMatch seekerId now m, ?_, rfl, ?_, ?_⟩
    · rw [htab]
      exact mem_upsertAll_of_mem _ table _ hrowmem hkeys
    · rw [← hfmEq]
      rfl
    · rw [← hfmEq]
      rfl
  · intro hnd fc hfc
    have hcl : (candidatesHandler llm pm now true jobId job seekers table).candidates =
        (List.insertionSort scoreDescC
          (seekers.map (scoreSeeker llm pm job))).map fmtCandidate := rfl
    rw [hcl] at hfc
    obtain ⟨c, hcS, hfcEq⟩ := List.mem_map.mp hfc
    have hcR : c ∈ seekers.map (scoreSeeker llm pm job) :=
      (List.perm_insertionSort scoreDescC _).mem_iff.mp hcS
    have hrowmem : rowOfCandidate jobId now c ∈
        (seekers.map (scoreSeeker llm pm job)).map (rowOfCandidate jobId now) :=
      List.mem_map_of_mem (rowOfCandidate jobId now) hcR
    have hkeys := rows_keys_nodup_candidates jobId now _
      (results_candidateIds_nodup llm pm job seekers hnd)
    have hlen : 0 < ((seekers.map (scoreSeeker llm pm job)).map
        (rowOfCandidate jobId now)).length :=
      List.length_pos_of_mem hrowmem
    have htab : (candidatesHandler llm pm now true jobId job seekers table).table =
        upsertAll table
          ((seekers.map (scoreSeeker llm pm job)).map (rowOfCandidate jobId now)) := by
      unfold candidatesHandler
      dsimp only
      rw [if_pos hlen, if_pos rfl]
    refine ⟨rowOfCandidate jobId now c, ?_, ?_, rfl, ?_⟩
    · rw [htab]
      exact mem_upsertAll_of_mem _ table _ hrowmem hkeys
    · rw [← hfcEq]
      rfl
    · rw [← hfcEq]
      rfl

/-- C5 (witness): for a concrete run of the server.js matches endpoint,
the returned match has a persisted row with the same ids and score. -/
theorem C5_server_response_persisted_witness :
    ∃ row ∈ (matchesHandler llmAll pmEx nowEx true 1 seekerEx [jobEx] []).table,
      row.job_seeker_id = 1 ∧
      row.job_listing_id = (fmtMatch (entryOfMatchData jobEx mdEx)).jobId ∧
      row.match_score = (fmtMatch (entryOfMatchData jobEx mdEx)).matchScorePct :=
  (C5_server_response_persisted llmAll pmEx nowEx 1 seekerEx [jobEx] [] 10 jobEx []).1
    (by decide) (fmtMatch (entryOfMatchData jobEx mdEx)) (by decide)

theorem reduceOption_map_some_eq (l : List α) : (l.map some).reduceOption = l := by
  induction l with
  | nil => rfl
  | cons a as ih => simp [List.reduceOption_cons_of_some, ih]

theorem foldl_setSlot_getElem (tasks : List α) :
    ∀ (order : List Nat) (slots : List (Option α))
      (hlen : slots.length = tasks.length) (i : Nat),
      (order.foldl (setSlot tasks) slots)[i]? =
        if i ∈ order ∧ i < tasks.length then some tasks[i]? else slots[i]? := by
  intro order
  induction order with
  | nil =>
    intro slots hlen i
    simp
  | cons j rest ih =>
    intro slots hlen i
    have hlen2 : (setSlot tasks slots j).length = tasks.length := by
      rw [← hlen]
      exact List.length_set ..
    have hstep : ((j :: rest).foldl (setSlot tasks) slots) =
        rest.foldl (setSlot tasks) (setSlot tasks slots j) := rfl
    rw [hstep, ih (setSlot tasks slots j) hlen2 i]
    by_cases hr : i ∈ rest ∧ i < tasks.length
    · rw [if_pos hr, if_pos ⟨List.mem_cons_of_mem j hr.1, hr.2⟩]
    · rw [if_neg hr]
      by_cases hij : i = j
      · subst hij
        by_cases hin : i < tasks.length
        · have hset : (setSlot tasks slots i)[i]? = some tasks[i]? := by
            unfold setSlot
            rw [List.getElem?_set_self (by rw [hlen]; exact hin)]
          rw [hset, if_pos ⟨List.mem_cons_self i rest, hin⟩]
        · have hout : tasks.length ≤ i := Nat.le_of_not_lt hin
          have h1 : (setSlot tasks slots i)[i]? = none := by
            apply List.getElem?_eq_none
            unfold setSlot
            rw [List.length_set, hlen]
            exact hout
          have h2 : slots[i]? = none := by
            apply List.getElem?_eq_none
            rw [hlen]
            exact hout
          rw [h1, if_neg (fun hc => hin hc.2), h2]
      · have h1 : (setSlot tasks slots j)[i]? = slots[i]? := by
          unfold setSlot
          exact List.getElem?_set_ne (fun h => hij h.symm)
        rw [h1]
        have hcond : ¬ (i ∈ j :: rest ∧ i < tasks.length) := by
          intro hc
          rcases List.mem_cons.mp hc.1 with h | h
          · exact hij h
          · exact hr ⟨h, hc.2⟩
        rw [if_neg hcond]

theorem runSchedule_eq_map_some (tasks : List α) (order : List Nat)
    (hall : ∀ i, i < tasks.length → i ∈ order) :
    runSchedule tasks order = tasks.map some := by
  apply List.ext_getElem?
  intro i
  have hbase := foldl_setSlot_getElem tasks order
    (List.replicate tasks.length none) (List.length_replicate ..) i
  by_cases hin : i < tasks.length
  · have hcond : i ∈ order ∧ i < tasks.length := ⟨hall i hin, hin⟩
    unfold runSchedule
    rw [hbase, if_pos hcond, List.getElem?_map, List.getElem?_eq_getElem hin]
    rfl
  · have hout : tasks.length ≤ i := Nat.le_of_not_lt hin
    unfold runSchedule
    rw [hbase, if_neg (fun hc => hin hc.2), List.getElem?_map]
    rw [List.getElem?_eq_none hout, List.getElem?_eq_none]
    · rfl
    · rw [List.length_replicate]
      exact hout

theorem parallelMap_eq_map (f : β → α) (l : List β) (order : List Nat)
    (hall : ∀ i, i < l.length → i ∈ order) :
    parallelMap f l order = l.map f := by
  unfold parallelMap awaitAll
  rw [runSchedule_eq_map_some (l.map f) order (by rw [List.length_map]; exact hall)]
  exact reduceOption_map_some_eq (l.map f)

/-- C7: for a fixed assignment of completion responses, the parallel
fan-out over the job seekers (and likewise over the jobs) produces, under
every completion schedule covering all tasks, exactly the sequential map
of the per-seeker (per-job) scoring function, element for element in the
input order: each entry depends only on its own seeker or job. -/
theorem C7_parallel_fanout_eq_sequential :
    ∀ (llm : Str → Str) (pm : Str → Option MatchData) (job : Job)
      (seekers : List Seeker) (seeker : Seeker) (jobs : List Job)
      (order1 order2 : List Nat),
      (∀ i, i < seekers.length → i ∈ order1) →
      (∀ i, i < jobs.length → i ∈ order2) →
      parallelMap (scoreSeeker llm pm job) seekers order1 =
        seekers.map (scoreSeeker llm pm job) ∧
      parallelMap (scoreJob llm pm seeker) jobs order2 =
        jobs.map (scoreJob llm pm seeker) := by
  intro llm pm job seekers seeker jobs order1 order2 h1 h2
  exact ⟨parallelMap_eq_map _ seekers order1 h1, parallelMap_eq_map _ jobs order2 h2⟩

/-- C7 (witness): a two-seeker fan-out completing in reverse order yields
the same candidate list as the sequential map. -/
theorem C7_parallel_fanout_eq_sequential_witness :
    parallelMap (scoreSeeker llmAll pmEx jobEx) [seekerEx, seekerEx2] [1, 0] =
      [seekerEx, seekerEx2].map (scoreSeeker llmAll pmEx jobEx) ∧
    parallelMap (scoreJob llmAll pmEx seekerEx) [jobEx] [0, 0] =
      [jobEx].map (scoreJob llmAll pmEx seekerEx) := by
  have h := C7_parallel_fanout_eq_sequential llmAll pmEx jobEx
    [seekerEx, seekerEx2] seekerEx [jobEx] [1, 0] [0, 0]
    (by decide) (by decide)
  exact h
